import Mathlib

/-!
Verification of the commission-calculation and invoice-tracking core of a
small CRUD application. The development shallowly embeds the client-side
calculation, aggregation and persistence logic: the live commission
calculator (pages/Index.tsx), the edit-dialog recomputation
(components/EditInvoiceDialog.tsx), the invoice store operations
(hooks/useInvoices.ts), the monthly breakdown aggregator
(components/MonthlyBreakdown.tsx) and the statistics engine
(components/Statistics.tsx). Monetary amounts and percentages are modelled
as rationals; store calls are modelled as pure state transformers with
explicit success flags for the external backend.
-/

/-- A calendar date in the local calendar, as produced by the repository's
parseInvoiceDate helper (year, month 1-12, day). -/
structure LocalDate where
  year : Int
  month : Int
  day : Int
  deriving DecidableEq, Repr

/-- A category configuration row ("product" in the UI): id, display name,
commission percentage and display color, as consumed by Index.tsx. -/
structure Product where
  id : String
  name : String
  percentage : ℚ
  color : String
  deriving DecidableEq, Repr

/-- One element of the live calculator's breakdown list
(Index.tsx, calculations). -/
structure BreakdownItem where
  name : String
  label : String
  amount : ℚ
  percentage : ℚ
  commission : ℚ
  color : String
  deriving DecidableEq, Repr

/-- The result structure of the live calculator (Index.tsx, calculations). -/
structure Calculations where
  breakdown : List BreakdownItem
  restAmount : ℚ
  restCommission : ℚ
  totalCommission : ℚ
  deriving DecidableEq, Repr

/-- productAmounts[id] || 0 : the allocation entered for a category id, with
missing entries read as 0 (Index.tsx line 38). -/
def amountFor (productAmounts : List (String × ℚ)) (id : String) : ℚ :=
  (productAmounts.lookup id).getD 0

/-- The live commission calculator (Index.tsx lines 34-61): per-category
commissions, the sum of all entered allocations, the clamped rest amount,
the rest commission and the grand total commission. -/
def calculations (products : List Product) (productAmounts : List (String × ℚ))
    (totalInvoice : ℚ) (restPercentage : ℚ) : Calculations :=
  let breakdown : List BreakdownItem := products.map fun product =>
    { name := product.name
      label := product.name
      amount := amountFor productAmounts product.id
      percentage := product.percentage
      commission := amountFor productAmounts product.id * (product.percentage / 100)
      color := product.color }
  let specialProductsTotal : ℚ := (productAmounts.map Prod.snd).sum
  let restAmount : ℚ := max 0 (totalInvoice - specialProductsTotal)
  let restCommission : ℚ := restAmount * (restPercentage / 100)
  let totalCommission : ℚ := (breakdown.map (·.commission)).sum + restCommission
  { breakdown := breakdown
    restAmount := restAmount
    restCommission := restCommission
    totalCommission := totalCommission }

/-- A stored invoice line item (interface InvoiceProduct, useInvoices.ts). -/
structure InvoiceProduct where
  product_name : String
  amount : ℚ
  percentage : ℚ
  commission : ℚ
  deriving DecidableEq, Repr

/-- A stored invoice with its line items attached (interface Invoice,
useInvoices.ts). invoice_date is optional; created_at is the creation
timestamp's calendar date. -/
structure Invoice where
  id : String
  ncf : String
  total_amount : ℚ
  rest_amount : ℚ
  rest_percentage : ℚ
  rest_commission : ℚ
  total_commission : ℚ
  created_at : LocalDate
  invoice_date : Option LocalDate
  products : List InvoiceProduct
  deriving DecidableEq, Repr

/-- JavaScript's v || d on numbers: d when v is 0, otherwise v. -/
def jsOr (v d : ℚ) : ℚ :=
  if v = 0 then d else v

/-- invoice.invoice_date || invoice.created_at : the effective date used by
the aggregator and statistics views. -/
def effectiveDate (inv : Invoice) : LocalDate :=
  inv.invoice_date.getD inv.created_at

/-- A line-item row as edited in the edit dialog (EditInvoiceDialog.tsx). -/
structure EditProduct where
  name : String
  amount : ℚ
  percentage : ℚ
  commission : ℚ
  deriving DecidableEq, Repr

/-- The edit dialog's form state after the open effect has loaded the
invoice (EditInvoiceDialog.tsx lines 45-71). -/
structure EditState where
  ncfSuffix : String
  invoiceDate : LocalDate
  totalAmount : ℚ
  products : List EditProduct
  restPercentage : ℚ
  deriving DecidableEq, Repr

/-- s.slice(-4) for a string of length at least 4: the last four characters. -/
def sliceLast4 (s : String) : String :=
  String.mk (s.toList.drop (s.toList.length - 4))

/-- s.padStart(4, the zero digit). -/
def padStart4 (s : String) : String :=
  String.mk (List.replicate (4 - s.toList.length) '0' ++ s.toList)

/-- The edit dialog's state after opening it on an invoice with no field
changed (EditInvoiceDialog.tsx useEffect lines 53-71 and the
restPercentage initializer on line 49: invoice.rest_percentage || 25). -/
def editDialogInit (inv : Invoice) : EditState :=
  { ncfSuffix := if 4 ≤ inv.ncf.toList.length then sliceLast4 inv.ncf else inv.ncf
    invoiceDate := effectiveDate inv
    totalAmount := inv.total_amount
    products := inv.products.map fun p =>
      { name := p.product_name
        amount := p.amount
        percentage := p.percentage
        commission := p.commission }
    restPercentage := jsOr inv.rest_percentage 25 }

/-- The argument tuple the edit dialog passes to onUpdate, and also the field
set persisted by the store's update and create operations. -/
structure UpdatePayload where
  ncf : String
  invoice_date : LocalDate
  total_amount : ℚ
  rest_amount : ℚ
  rest_percentage : ℚ
  rest_commission : ℚ
  total_commission : ℚ
  products : List EditProduct
  deriving DecidableEq, Repr

/-- The edit dialog's submit handler (EditInvoiceDialog.tsx lines 81-110):
none when the NCF suffix does not have exactly 4 digits, otherwise the
payload passed to onUpdate. The rest amount is totalAmount minus the
line-item total, with no clamping. -/
def editSubmit (st : EditState) : Option UpdatePayload :=
  if st.ncfSuffix.toList.length ≠ 4 then none
  else
    let fullNcf := "B01000" ++ padStart4 st.ncfSuffix
    let productsTotal := (st.products.map (·.amount)).sum
    let productsCommission := (st.products.map (·.commission)).sum
    let restAmount := st.totalAmount - productsTotal
    let restCommission := restAmount * (st.restPercentage / 100)
    let totalCommission := productsCommission + restCommission
    some
      { ncf := fullNcf
        invoice_date := st.invoiceDate
        total_amount := st.totalAmount
        rest_amount := restAmount
        rest_percentage := st.restPercentage
        rest_commission := restCommission
        total_commission := totalCommission
        products := st.products }

/-- A row of the invoices table (schema in the migrations). -/
structure InvoiceRow where
  id : String
  ncf : String
  invoice_date : LocalDate
  created_at : LocalDate
  total_amount : ℚ
  rest_amount : ℚ
  rest_percentage : ℚ
  rest_commission : ℚ
  total_commission : ℚ
  deriving DecidableEq, Repr

/-- A row of the invoice_products table. -/
structure ProductRow where
  invoice_id : String
  product_name : String
  amount : ℚ
  percentage : ℚ
  commission : ℚ
  deriving DecidableEq, Repr

/-- The persisted store: the invoices table and the invoice_products table. -/
structure DB where
  invoices : List InvoiceRow
  invoice_products : List ProductRow
  deriving DecidableEq, Repr

/-- Outcome of a store write as surfaced to the user: success toast,
duplicate-NCF rejection, or storage-error rejection. -/
inductive SaveResult where
  | succeeded
  | rejectedDuplicate
  | rejectedStorage
  deriving DecidableEq, Repr

/-- saveInvoice (useInvoices.ts lines 63-131). headerOk and productsOk model
whether the two backend insert calls succeed. The duplicate check runs
first; a failed header insert aborts; a failed line-item insert is only
logged, after which success is still reported with the header committed
and the line items missing. -/
def saveInvoiceDB (db : DB) (newId : String) (createdAt : LocalDate)
    (f : UpdatePayload) (headerOk productsOk : Bool) : SaveResult × DB :=
  match db.invoices.find? (fun i => i.ncf == f.ncf) with
  | some _ => (.rejectedDuplicate, db)
  | none =>
    if headerOk = false then (.rejectedStorage, db)
    else
      let row : InvoiceRow :=
        { id := newId
          ncf := f.ncf
          invoice_date := f.invoice_date
          created_at := createdAt
          total_amount := f.total_amount
          rest_amount := f.rest_amount
          rest_percentage := f.rest_percentage
          rest_commission := f.rest_commission
          total_commission := f.total_commission }
      let db1 : DB := ⟨db.invoices ++ [row], db.invoice_products⟩
      let inserts : List ProductRow :=
        (f.products.filter fun p => 0 < p.amount).map fun p =>
          { invoice_id := newId
            product_name := p.name
            amount := p.amount
            percentage := p.percentage
            commission := p.commission }
      match inserts with
      | [] => (.succeeded, db1)
      | _ :: _ =>
        if productsOk then (.succeeded, ⟨db1.invoices, db1.invoice_products ++ inserts⟩)
        else (.succeeded, db1)

/-- Replacement of an invoice row's scalar fields by an update payload
(useInvoices.ts lines 174-187). -/
def applyUpdateFields (i : InvoiceRow) (f : UpdatePayload) : InvoiceRow :=
  { i with
    ncf := f.ncf
    invoice_date := f.invoice_date
    total_amount := f.total_amount
    rest_amount := f.rest_amount
    rest_percentage := f.rest_percentage
    rest_commission := f.rest_commission
    total_commission := f.total_commission }

/-- updateInvoice (useInvoices.ts lines 150-224). The duplicate check
excludes the invoice being updated; the header update aborts on failure or
when the row is missing; the line items are deleted and re-inserted, and a
failed re-insert is only logged while success is still reported. -/
def updateInvoiceDB (db : DB) (id : String) (f : UpdatePayload)
    (updateOk productsOk : Bool) : SaveResult × DB :=
  match db.invoices.find? (fun i => i.ncf == f.ncf && !(i.id == id)) with
  | some _ => (.rejectedDuplicate, db)
  | none =>
    match updateOk, db.invoices.find? (fun i => i.id == id) with
    | false, _ => (.rejectedStorage, db)
    | true, none => (.rejectedStorage, db)
    | true, some _ =>
      let db1 : DB :=
        ⟨db.invoices.map (fun i => if i.id == id then applyUpdateFields i f else i),
         db.invoice_products⟩
      let db2 : DB := ⟨db1.invoices, db1.invoice_products.filter fun p => !(p.invoice_id == id)⟩
      let inserts : List ProductRow :=
        (f.products.filter fun p => 0 < p.amount).map fun p =>
          { invoice_id := id
            product_name := p.name
            amount := p.amount
            percentage := p.percentage
            commission := p.commission }
      match inserts with
      | [] => (.succeeded, db2)
      | _ :: _ =>
        if productsOk then (.succeeded, ⟨db2.invoices, db2.invoice_products ++ inserts⟩)
        else (.succeeded, db2)

/-- deleteInvoice (useInvoices.ts lines 133-148): a failed delete reports
failure and leaves the store unchanged; a successful delete removes the
invoice and (by the schema's cascade) its line items. -/
def deleteInvoiceDB (db : DB) (id : String) (ok : Bool) : Bool × DB :=
  if ok = false then (false, db)
  else
    (true,
     ⟨db.invoices.filter (fun i => !(i.id == id)),
      db.invoice_products.filter fun p => !(p.invoice_id == id)⟩)

/-- Whether a year is a leap year in the proleptic Gregorian calendar, as
used by the date library backing startOfMonth/endOfMonth. -/
def isLeapYear (y : Int) : Bool :=
  (y % 4 == 0 && y % 100 != 0) || (y % 400 == 0)

/-- Number of days of a month in the local calendar. -/
def daysInMonth (y m : Int) : Int :=
  if m = 2 then (if isLeapYear y then 29 else 28)
  else if m = 4 ∨ m = 6 ∨ m = 9 ∨ m = 11 then 30
  else 31

/-- Chronological order on calendar dates (lexicographic on year, month,
day), mirroring comparison of the timestamps the dates parse to. -/
def dateLE (a b : LocalDate) : Bool :=
  a.year < b.year ||
    (a.year == b.year &&
      (a.month < b.month || (a.month == b.month && a.day ≤ b.day)))

/-- The first instant of a month (date-fns startOfMonth, at date
granularity). -/
def startOfMonth (y m : Int) : LocalDate :=
  ⟨y, m, 1⟩

/-- The last instant of a month (date-fns endOfMonth, at date granularity:
the last day of the month). -/
def endOfMonth (y m : Int) : LocalDate :=
  ⟨y, m, daysInMonth y m⟩

/-- date-fns isWithinInterval at date granularity: start ≤ d ≤ end. -/
def isWithinIntervalDate (d start stop : LocalDate) : Bool :=
  dateLE start d && dateLE d stop

/-- The aggregator's month filter (MonthlyBreakdown.tsx lines 91-100):
invoices whose effective date lies within the selected month's first and
last instants. -/
def filteredInvoices (invoices : List Invoice) (y m : Int) : List Invoice :=
  invoices.filter fun inv =>
    isWithinIntervalDate (effectiveDate inv) (startOfMonth y m) (endOfMonth y m)

/-- One entry of a per-category aggregation group
(interface ProductEntry, MonthlyBreakdown.tsx). -/
structure ProductEntry where
  ncf : String
  date : LocalDate
  amount : ℚ
  deriving DecidableEq, Repr

/-- A per-category aggregation group (interface ProductBreakdown,
MonthlyBreakdown.tsx). -/
structure ProductBreakdown where
  name : String
  percentage : ℚ
  entries : List ProductEntry
  totalAmount : ℚ
  totalCommission : ℚ
  deriving DecidableEq, Repr

/-- Insertion of one positive line item into the keyed group accumulator:
the group keyed by the item's name is extended (its name and percentage
kept as created), or a new group is appended when the name is new. This is
the products[key] record update of MonthlyBreakdown.tsx lines 110-127,
with the JavaScript object's insertion order made explicit. -/
def insertItem (acc : List ProductBreakdown) (ncf : String) (date : LocalDate)
    (p : InvoiceProduct) : List ProductBreakdown :=
  match acc with
  | [] =>
    [{ name := p.product_name
       percentage := p.percentage
       entries := [⟨ncf, date, p.amount⟩]
       totalAmount := p.amount
       totalCommission := p.commission }]
  | b :: rest =>
    if b.name = p.product_name then
      { b with
        entries := b.entries ++ [⟨ncf, date, p.amount⟩]
        totalAmount := b.totalAmount + p.amount
        totalCommission := b.totalCommission + p.commission } :: rest
    else
      b :: insertItem rest ncf date p

/-- Folding one invoice's line items into the accumulator, skipping items
with amount ≤ 0 (MonthlyBreakdown.tsx lines 106-129). -/
def addInvoiceItems (acc : List ProductBreakdown) (inv : Invoice) : List ProductBreakdown :=
  inv.products.foldl
    (fun a p => if 0 < p.amount then insertItem a inv.ncf (effectiveDate inv) p else a)
    acc

/-- The grouped per-category breakdown before display sorting
(MonthlyBreakdown.tsx lines 103-130, Object.values in insertion order). -/
def productsBreakdownRaw (invoices : List Invoice) : List ProductBreakdown :=
  invoices.foldl addInvoiceItems []

/-- The displayed per-category breakdown: groups sorted by descending
subtotal amount (MonthlyBreakdown.tsx line 131). -/
def productsBreakdown (invoices : List Invoice) : List ProductBreakdown :=
  (productsBreakdownRaw invoices).mergeSort fun a b => b.totalAmount ≤ a.totalAmount

/-- The rest bucket aggregate (MonthlyBreakdown.tsx lines 135-153). -/
structure RestBreakdown where
  entries : List ProductEntry
  totalAmount : ℚ
  totalCommission : ℚ
  deriving DecidableEq, Repr

/-- The rest bucket: one entry per invoice with rest_amount > 0, sourced
from the invoice's stored rest fields (MonthlyBreakdown.tsx lines
135-153). -/
def restBreakdown (invoices : List Invoice) : RestBreakdown :=
  invoices.foldl
    (fun acc inv =>
      if 0 < inv.rest_amount then
        { entries := acc.entries ++ [⟨inv.ncf, effectiveDate inv, inv.rest_amount⟩]
          totalAmount := acc.totalAmount + inv.rest_amount
          totalCommission := acc.totalCommission + inv.rest_commission }
      else acc)
    ⟨[], 0, 0⟩

/-- The grand total commission shown by the breakdown view
(MonthlyBreakdown.tsx lines 155-157). -/
def grandTotalCommission (invoices : List Invoice) : ℚ :=
  ((productsBreakdown invoices).map (·.totalCommission)).sum
    + (restBreakdown invoices).totalCommission

/-- Aggregates of one month's invoices (Statistics.tsx lines 50-86). -/
structure MonthStats where
  totalSales : ℚ
  totalCommission : ℚ
  invoiceCount : Nat
  deriving DecidableEq, Repr

/-- Month aggregates used by the statistics engine: sums and count over the
invoices whose effective date falls in the month (Statistics.tsx lines
50-86, sharing the same month filter as the aggregator). -/
def monthStats (invoices : List Invoice) (y m : Int) : MonthStats :=
  let monthInvoices := filteredInvoices invoices y m
  { totalSales := (monthInvoices.map (·.total_amount)).sum
    totalCommission := (monthInvoices.map (·.total_commission)).sum
    invoiceCount := monthInvoices.length }

/-- date-fns subMonths by one month, at (year, month) granularity. -/
def prevMonth (y m : Int) : Int × Int :=
  if m ≤ 1 then (y - 1, 12) else (y, m - 1)

/-- The percent-change value computed for sales and commission totals
(Statistics.tsx lines 88-94): 0 when the previous value is not positive. -/
def percentChange (curr prev : ℚ) : ℚ :=
  if 0 < prev then (curr - prev) / prev * 100 else 0

/-- The sales percent change as reported to the user: the badge is rendered
only when the previous month's sales total is positive (Statistics.tsx
lines 88-90 with the render guard on line 200), so the report is none
("no data") when it is not. -/
def reportedSalesChange (curr prev : ℚ) : Option ℚ :=
  if 0 < prev then some (percentChange curr prev) else none

/-- The commission percent change as reported to the user (Statistics.tsx
lines 92-94 with the render guard on line 247). -/
def reportedCommissionChange (curr prev : ℚ) : Option ℚ :=
  if 0 < prev then some (percentChange curr prev) else none

/-- The invoice-count percent change as reported to the user (Statistics.tsx
lines 96-98 with the render guard on line 282). -/
def reportedInvoiceCountChange (curr prev : Nat) : Option ℚ :=
  if 0 < prev then some (percentChange curr prev) else none

/-- The application state holding the category configuration and the
persisted invoices. -/
structure AppState where
  products : List Product
  invoices : List Invoice
  deriving DecidableEq, Repr

/-- Modelled from the spec: the category-configuration update operation of
the products hook, whose source is not under src. Per the data-model
section, the configuration is mutable independently of historical
invoices: updating a category's percentage rewrites only the products
configuration and touches no invoice record. -/
def updateProductPercentage (s : AppState) (id : String) (pct : ℚ) : AppState :=
  { s with
    products := s.products.map fun p =>
      if p.id = id then { p with percentage := pct } else p }

/-- The edit dialog's per-line amount change handler (EditInvoiceDialog.tsx
lines 73-79): the edited row's amount is replaced and its commission
recomputed from its frozen percentage; the numeric input parsing at the
boundary is out of scope, so the parsed value is taken directly. -/
def updateAmountAt : List EditProduct → Nat → ℚ → List EditProduct
  | [], _, _ => []
  | p :: rest, 0, value =>
    { p with amount := value, commission := value * (p.percentage / 100) } :: rest
  | p :: rest, Nat.succ n, value => p :: updateAmountAt rest n value

/-- The edit dialog's per-line amount change handler applied to the form
state. -/
def handleProductAmountChange (st : EditState) (index : Nat) (value : ℚ) : EditState :=
  { st with products := updateAmountAt st.products index value }

/-- A stored invoice used to exercise the edit dialog: total 100, one line
item of 50 at 10 percent, rest 50 at 25 percent. -/
def invC3 : Invoice :=
  { id := "i1"
    ncf := "B010001234"
    total_amount := 100
    rest_amount := 50
    rest_percentage := 25
    rest_commission := 25 / 2
    total_commission := 35 / 2
    created_at := ⟨2025, 3, 10⟩
    invoice_date := some ⟨2025, 3, 10⟩
    products := [{ product_name := "A", amount := 50, percentage := 10, commission := 5 }] }

/-- The store holding exactly the row and line item of invC3. -/
def dbC3 : DB :=
  ⟨[{ id := "i1", ncf := "B010001234", invoice_date := ⟨2025, 3, 10⟩,
      created_at := ⟨2025, 3, 10⟩, total_amount := 100, rest_amount := 50,
      rest_percentage := 25, rest_commission := 25 / 2, total_commission := 35 / 2 }],
   [{ invoice_id := "i1", product_name := "A", amount := 50, percentage := 10,
      commission := 5 }]⟩

/-- The edit state after opening the dialog on invC3 and raising the line
item's amount to 200, over-allocating the invoice total of 100. -/
def stC3 : EditState :=
  handleProductAmountChange (editDialogInit invC3) 0 200

/-- The payload the edit dialog submits for stC3: the rest amount is
100 - 200 = -100, unclamped. -/
def payloadC3 : UpdatePayload :=
  { ncf := "B010001234"
    invoice_date := ⟨2025, 3, 10⟩
    total_amount := 100
    rest_amount := -100
    rest_percentage := 25
    rest_commission := -25
    total_commission := -5
    products := [{ name := "A", amount := 200, percentage := 10, commission := 20 }] }

/-- A stored invoice whose rest percentage is 0. -/
def invC10 : Invoice :=
  { id := "i2"
    ncf := "B010000007"
    total_amount := 400
    rest_amount := 300
    rest_percentage := 0
    rest_commission := 0
    total_commission := 10
    created_at := ⟨2025, 4, 2⟩
    invoice_date := some ⟨2025, 4, 2⟩
    products := [{ product_name := "A", amount := 100, percentage := 10, commission := 10 }] }

/-- An existing invoice row used for the NCF-uniqueness scenarios. -/
def rowC4 : InvoiceRow :=
  { id := "i1"
    ncf := "B010001111"
    invoice_date := ⟨2025, 1, 15⟩
    created_at := ⟨2025, 1, 15⟩
    total_amount := 500
    rest_amount := 500
    rest_percentage := 25
    rest_commission := 125
    total_commission := 125 }

/-- A store holding exactly rowC4. -/
def dbC4 : DB :=
  ⟨[rowC4], []⟩

/-- A payload reusing rowC4's NCF. -/
def payDup : UpdatePayload :=
  { ncf := "B010001111"
    invoice_date := ⟨2025, 2, 1⟩
    total_amount := 300
    rest_amount := 300
    rest_percentage := 25
    rest_commission := 75
    total_commission := 75
    products := [] }

/-- The empty store. -/
def dbEmpty : DB :=
  ⟨[], []⟩

/-- A create payload with one positive line item. -/
def payC8 : UpdatePayload :=
  { ncf := "B010002222"
    invoice_date := ⟨2025, 5, 1⟩
    total_amount := 100
    rest_amount := 0
    rest_percentage := 25
    rest_commission := 0
    total_commission := 10
    products := [{ name := "A", amount := 100, percentage := 10, commission := 10 }] }

/-- An invoice dated the last day of January 2025. -/
def invJan : Invoice :=
  { id := "j1"
    ncf := "B010003001"
    total_amount := 100
    rest_amount := 100
    rest_percentage := 25
    rest_commission := 25
    total_commission := 25
    created_at := ⟨2025, 1, 31⟩
    invoice_date := some ⟨2025, 1, 31⟩
    products := [] }

/-- An invoice dated the first day of February 2025. -/
def invFeb : Invoice :=
  { id := "f1"
    ncf := "B010003002"
    total_amount := 200
    rest_amount := 200
    rest_percentage := 25
    rest_commission := 50
    total_commission := 50
    created_at := ⟨2025, 2, 1⟩
    invoice_date := some ⟨2025, 2, 1⟩
    products := [] }

/-- Example category configuration of the spec's worked scenario:
category A at 10 percent, category B at 20 percent. -/
def exProducts : List Product :=
  [{ id := "a", name := "A", percentage := 10, color := "gray" },
   { id := "b", name := "B", percentage := 20, color := "gray" }]

/-- Example allocations of the spec's worked scenario: 300 to A, 200 to B. -/
def exAmounts : List (String × ℚ) :=
  [("a", 300), ("b", 200)]

/-- An application state with the example configuration and one saved
invoice. -/
def sC9 : AppState :=
  ⟨exProducts, [invC10]⟩

/-- C1: for every invoice total, allocation map, percentage map and rest
percentage, the calculator's total commission equals the sum over the
categories of allocated amount times percentage over 100 plus the rest
amount times the rest percentage over 100; and on the worked scenario
(total 1000, A 300 at 10, B 200 at 20, rest 25) it returns commissions
30 and 40, rest amount 500, rest commission 125 and total commission
195. -/
theorem totalCommission_formula (products : List Product)
    (productAmounts : List (String × ℚ)) (totalInvoice restPercentage : ℚ) :
    ((calculations products productAmounts totalInvoice restPercentage).totalCommission
        = (products.map fun p => amountFor productAmounts p.id * (p.percentage / 100)).sum
          + (calculations products productAmounts totalInvoice restPercentage).restAmount
            * (restPercentage / 100))
    ∧ ((calculations exProducts exAmounts 1000 25).breakdown.map (·.commission) = [30, 40]
        ∧ (calculations exProducts exAmounts 1000 25).restAmount = 500
        ∧ (calculations exProducts exAmounts 1000 25).restCommission = 125
        ∧ (calculations exProducts exAmounts 1000 25).totalCommission = 195) := by
  have hba : (("b" : String) == "a") = false := rfl
  have haa : (("a" : String) == "a") = true := rfl
  refine ⟨?_, ?_, ?_, ?_, ?_⟩
  · simp only [calculations, List.map_map]
    rfl
  · norm_num [calculations, amountFor, exProducts, exAmounts, List.lookup, hba, haa]
  · norm_num [calculations, amountFor, exProducts, exAmounts, List.lookup, hba, haa]
  · norm_num [calculations, amountFor, exProducts, exAmounts, List.lookup, hba, haa]
  · norm_num [calculations, amountFor, exProducts, exAmounts, List.lookup, hba, haa]

/-- C2: the calculator's rest amount equals the invoice total minus the
allocation sum when that sum does not exceed the total, and 0 otherwise;
over-allocation is clamped, not rejected. -/
theorem restAmount_clamped (products : List Product)
    (productAmounts : List (String × ℚ)) (totalInvoice restPercentage : ℚ) :
    (calculations products productAmounts totalInvoice restPercentage).restAmount
      = if (productAmounts.map Prod.snd).sum ≤ totalInvoice
        then totalInvoice - (productAmounts.map Prod.snd).sum
        else 0 := by
  show max 0 (totalInvoice - (productAmounts.map Prod.snd).sum) = _
  split_ifs with h
  · exact max_eq_right (by linarith)
  · exact max_eq_left (by linarith)

/-- C3 counterexample: editing the invoice invC3 (total 100) so that its one
line item holds 200 submits and persists rest_amount = -100, not
max(0, 100 - 200) = 0: the persisted rest amount of an update is
negative under over-allocation. -/
theorem negative_rest_persisted_counterexample :
    editSubmit stC3 = some payloadC3
    ∧ ((updateInvoiceDB dbC3 "i1" payloadC3 true true).2.invoices.map (·.rest_amount)) = [-100]
    ∧ ((updateInvoiceDB dbC3 "i1" payloadC3 true true).2.invoices.map (·.total_amount)) = [100]
    ∧ ((updateInvoiceDB dbC3 "i1" payloadC3 true true).2.invoice_products.map (·.amount)) = [200]
    ∧ ¬ ((-100 : ℚ) = max 0 (100 - 200)) := by
  have hmax : max (0 : ℚ) (100 - 200) = 0 := max_eq_left (by norm_num)
  refine ⟨?_, ?_, ?_, ?_, ?_⟩
  · norm_num [editSubmit, stC3, editDialogInit, invC3, handleProductAmountChange,
      updateAmountAt, sliceLast4, padStart4, jsOr, effectiveDate, payloadC3]
    rfl
  · norm_num [updateInvoiceDB, dbC3, payloadC3, applyUpdateFields]
  · norm_num [updateInvoiceDB, dbC3, payloadC3, applyUpdateFields]
  · norm_num [updateInvoiceDB, dbC3, payloadC3, applyUpdateFields]
  · rw [hmax]; norm_num

/-- C3 amended: the save path persists rest_amount = max(0, total minus the
sum of the entered allocation amounts), which is never negative; the edit
path persists rest_amount = total_amount minus the sum of the line-item
amounts with no clamping, which is negative whenever the line items sum
beyond the total. -/
theorem rest_amount_write_paths (products : List Product)
    (productAmounts : List (String × ℚ)) (totalInvoice restPercentage : ℚ)
    (st : EditState) (pay : UpdatePayload) (h : editSubmit st = some pay) :
    (calculations products productAmounts totalInvoice restPercentage).restAmount
      = max 0 (totalInvoice - (productAmounts.map Prod.snd).sum)
    ∧ 0 ≤ (calculations products productAmounts totalInvoice restPercentage).restAmount
    ∧ pay.rest_amount = st.totalAmount - (st.products.map (·.amount)).sum
    ∧ (st.totalAmount < (st.products.map (·.amount)).sum → pay.rest_amount < 0) := by
  have hpay : pay.rest_amount = st.totalAmount - (st.products.map (·.amount)).sum := by
    unfold editSubmit at h
    split at h
    · exact Option.noConfusion h
    · simp only [Option.some.injEq] at h
      subst h
      rfl
  refine ⟨rfl, le_max_left 0 _, hpay, fun hlt => ?_⟩
  rw [hpay]
  linarith

/-- Witness for the amended C3 theorem at the concrete over-allocated edit
state stC3. -/
theorem rest_amount_write_paths_witness :
    (calculations exProducts exAmounts 1000 25).restAmount
      = max 0 (1000 - (exAmounts.map Prod.snd).sum)
    ∧ 0 ≤ (calculations exProducts exAmounts 1000 25).restAmount
    ∧ payloadC3.rest_amount = stC3.totalAmount - (stC3.products.map (·.amount)).sum
    ∧ (stC3.totalAmount < (stC3.products.map (·.amount)).sum → payloadC3.rest_amount < 0) :=
  rest_amount_write_paths exProducts exAmounts 1000 25 stC3 payloadC3 (by
    norm_num [editSubmit, stC3, editDialogInit, invC3, handleProductAmountChange,
      updateAmountAt, sliceLast4, padStart4, jsOr, effectiveDate, payloadC3]
    rfl)

/-- Shape of the edit dialog's submitted payload once the NCF-suffix length
guard passes. -/
theorem editSubmit_eq (st : EditState) (h4 : st.ncfSuffix.toList.length = 4) :
    editSubmit st = some
      { ncf := "B01000" ++ padStart4 st.ncfSuffix
        invoice_date := st.invoiceDate
        total_amount := st.totalAmount
        rest_amount := st.totalAmount - (st.products.map (·.amount)).sum
        rest_percentage := st.restPercentage
        rest_commission :=
          (st.totalAmount - (st.products.map (·.amount)).sum) * (st.restPercentage / 100)
        total_commission :=
          (st.products.map (·.commission)).sum
            + (st.totalAmount - (st.products.map (·.amount)).sum) * (st.restPercentage / 100)
        products := st.products } := by
  unfold editSubmit
  rw [if_neg (fun hne => hne h4)]

/-- Length of the NCF suffix loaded by the edit dialog from an invoice whose
NCF has at least four characters. -/
theorem editDialogInit_suffix_len (inv : Invoice) (hlen : 4 ≤ inv.ncf.toList.length) :
    (editDialogInit inv).ncfSuffix.toList.length = 4 := by
  show (if 4 ≤ inv.ncf.toList.length then sliceLast4 inv.ncf else inv.ncf).toList.length = 4
  rw [if_pos hlen]
  show (inv.ncf.toList.drop (inv.ncf.toList.length - 4)).length = 4
  rw [List.length_drop]
  omega

/-- C10: submitting the edit dialog on an invoice whose stored rest
percentage is 0 persists rest percentage 25 and recomputes the rest
commission and total commission at 25 percent. -/
theorem edit_resets_zero_rest_percentage (inv : Invoice)
    (hz : inv.rest_percentage = 0) (hlen : 4 ≤ inv.ncf.toList.length) :
    (editSubmit (editDialogInit inv)).map (·.rest_percentage) = some 25
    ∧ (editSubmit (editDialogInit inv)).map (·.rest_commission)
        = some ((inv.total_amount - (inv.products.map (·.amount)).sum) * (25 / 100))
    ∧ (editSubmit (editDialogInit inv)).map (·.total_commission)
        = some ((inv.products.map (·.commission)).sum
            + (inv.total_amount - (inv.products.map (·.amount)).sum) * (25 / 100)) := by
  have hpct : (editDialogInit inv).restPercentage = 25 := by
    show jsOr inv.rest_percentage 25 = 25
    rw [hz]
    rfl
  have hamt : ((editDialogInit inv).products.map (·.amount)).sum
      = (inv.products.map (·.amount)).sum := by
    show ((inv.products.map fun p =>
        ({ name := p.product_name, amount := p.amount, percentage := p.percentage,
           commission := p.commission } : EditProduct)).map fun e => e.amount).sum
      = (inv.products.map fun p => p.amount).sum
    rw [List.map_map]
    rfl
  have hcom : ((editDialogInit inv).products.map (·.commission)).sum
      = (inv.products.map (·.commission)).sum := by
    show ((inv.products.map fun p =>
        ({ name := p.product_name, amount := p.amount, percentage := p.percentage,
           commission := p.commission } : EditProduct)).map fun e => e.commission).sum
      = (inv.products.map fun p => p.commission).sum
    rw [List.map_map]
    rfl
  have htot : (editDialogInit inv).totalAmount = inv.total_amount := rfl
  rw [editSubmit_eq _ (editDialogInit_suffix_len inv hlen)]
  refine ⟨?_, ?_, ?_⟩ <;> simp only [Option.map_some']
  · rw [hpct]
  · rw [hpct, hamt, htot]
  · rw [hpct, hamt, hcom, htot]

/-- Witness for C10 at the concrete invoice invC10 with stored rest
percentage 0. -/
theorem edit_resets_zero_rest_percentage_witness :
    (editSubmit (editDialogInit invC10)).map (·.rest_percentage) = some 25
    ∧ (editSubmit (editDialogInit invC10)).map (·.rest_commission)
        = some ((invC10.total_amount - (invC10.products.map (·.amount)).sum) * (25 / 100))
    ∧ (editSubmit (editDialogInit invC10)).map (·.total_commission)
        = some ((invC10.products.map (·.commission)).sum
            + (invC10.total_amount - (invC10.products.map (·.amount)).sum) * (25 / 100)) :=
  edit_resets_zero_rest_percentage invC10 rfl (by decide)

/-- C4: creating an invoice whose NCF equals an existing invoice's NCF is
rejected as a duplicate with the store unchanged, while updating an
invoice to its own unchanged NCF succeeds, because the update's
uniqueness check excludes the invoice being updated. -/
theorem ncf_uniqueness (db : DB) (newId : String) (createdAt : LocalDate)
    (f g : UpdatePayload) (ex inv : InvoiceRow) (headerOk productsOk pOk : Bool)
    (hex : ex ∈ db.invoices) (hncf : ex.ncf = f.ncf)
    (hinv : inv ∈ db.invoices) (hg : g.ncf = inv.ncf)
    (huniq : ∀ j ∈ db.invoices, j.ncf = inv.ncf → j.id = inv.id) :
    (saveInvoiceDB db newId createdAt f headerOk productsOk).1 = .rejectedDuplicate
    ∧ (saveInvoiceDB db newId createdAt f headerOk productsOk).2 = db
    ∧ (updateInvoiceDB db inv.id g true pOk).1 = .succeeded := by
  have hfind : (db.invoices.find? fun i => i.ncf == f.ncf).isSome := by
    rw [List.find?_isSome]
    exact ⟨ex, hex, by simp [hncf]⟩
  obtain ⟨v, hv⟩ := Option.isSome_iff_exists.mp hfind
  have hnone : (db.invoices.find? fun i => i.ncf == g.ncf && !(i.id == inv.id)) = none := by
    rw [List.find?_eq_none]
    intro x hx h
    rw [Bool.and_eq_true] at h
    obtain ⟨h1, h2⟩ := h
    rw [beq_iff_eq] at h1
    have hid : x.id = inv.id := huniq x hx (h1.trans hg)
    rw [Bool.not_eq_true', beq_eq_false_iff_ne] at h2
    exact h2 hid
  have hfid : (db.invoices.find? fun i => i.id == inv.id).isSome := by
    rw [List.find?_isSome]
    exact ⟨inv, hinv, by simp⟩
  obtain ⟨w, hw⟩ := Option.isSome_iff_exists.mp hfid
  refine ⟨?_, ?_, ?_⟩
  · unfold saveInvoiceDB
    rw [hv]
  · unfold saveInvoiceDB
    rw [hv]
  · unfold updateInvoiceDB
    rw [hnone, hw]
    cases hfil : g.products.filter fun p => 0 < p.amount with
    | nil => rfl
    | cons a l => cases pOk <;> rfl

/-- Witness for C4 at a one-invoice store: a duplicate create is rejected
leaving the store unchanged, and an own-NCF update succeeds. -/
theorem ncf_uniqueness_witness :
    (saveInvoiceDB dbC4 "new" ⟨2025, 2, 1⟩ payDup true true).1 = .rejectedDuplicate
    ∧ (saveInvoiceDB dbC4 "new" ⟨2025, 2, 1⟩ payDup true true).2 = dbC4
    ∧ (updateInvoiceDB dbC4 rowC4.id payDup true true).1 = .succeeded :=
  ncf_uniqueness dbC4 "new" ⟨2025, 2, 1⟩ payDup payDup rowC4 rowC4 true true true
    (by simp [dbC4]) rfl (by simp [dbC4]) rfl
    (by intro j hj hn
        simp only [dbC4, List.mem_singleton] at hj
        rw [hj])

/-- C8 counterexample: a create on the empty store whose header insert
succeeds and whose line-item insert fails still reports success and
leaves the invoice header committed with no line items. -/
theorem partial_save_counterexample :
    (saveInvoiceDB dbEmpty "i9" ⟨2025, 5, 1⟩ payC8 true false).1 = .succeeded
    ∧ ((saveInvoiceDB dbEmpty "i9" ⟨2025, 5, 1⟩ payC8 true false).2.invoices.map (·.id)) = ["i9"]
    ∧ (saveInvoiceDB dbEmpty "i9" ⟨2025, 5, 1⟩ payC8 true false).2.invoice_products = [] := by
  refine ⟨?_, ?_, ?_⟩ <;> norm_num [saveInvoiceDB, dbEmpty, payC8]

/-- C8 amended: a failed header insert aborts the create with a failure
report and an unchanged store, and a failed delete reports failure and
leaves the store unchanged; but when the header insert succeeds and the
line-item insert fails, the create reports success and commits the
header without its line items. -/
theorem store_failure_handling (db : DB) (newId : String) (createdAt : LocalDate)
    (f : UpdatePayload) (id : String) (pOk : Bool)
    (hdup : (db.invoices.find? fun i => i.ncf == f.ncf) = none) :
    saveInvoiceDB db newId createdAt f false pOk = (.rejectedStorage, db)
    ∧ deleteInvoiceDB db id false = (false, db)
    ∧ ((f.products.filter fun p => 0 < p.amount) ≠ [] →
        (saveInvoiceDB db newId createdAt f true false).1 = .succeeded
        ∧ (saveInvoiceDB db newId createdAt f true false).2.invoice_products
            = db.invoice_products) := by
  refine ⟨?_, rfl, ?_⟩
  · unfold saveInvoiceDB
    rw [hdup]
    rfl
  · intro hne
    unfold saveInvoiceDB
    rw [hdup]
    cases hfil : f.products.filter fun p => 0 < p.amount with
    | nil => exact absurd hfil hne
    | cons a l => exact ⟨rfl, rfl⟩

/-- Witness for the amended C8 theorem on the empty store. -/
theorem store_failure_handling_witness :
    saveInvoiceDB dbEmpty "i9" ⟨2025, 5, 1⟩ payC8 false true = (.rejectedStorage, dbEmpty)
    ∧ deleteInvoiceDB dbEmpty "x" false = (false, dbEmpty)
    ∧ ((saveInvoiceDB dbEmpty "i9" ⟨2025, 5, 1⟩ payC8 true false).1 = .succeeded
        ∧ (saveInvoiceDB dbEmpty "i9" ⟨2025, 5, 1⟩ payC8 true false).2.invoice_products
            = dbEmpty.invoice_products) := by
  have h := store_failure_handling dbEmpty "i9" ⟨2025, 5, 1⟩ payC8 "x" true rfl
  exact ⟨h.1, h.2.1, h.2.2 (by decide)⟩

/-- The filter's date test holds exactly on the selected month, for any
date whose day is valid for its own month. -/
theorem withinMonth_iff (d : LocalDate) (y m : Int)
    (h1 : 1 ≤ d.day) (h2 : d.day ≤ daysInMonth d.year d.month) :
    (isWithinIntervalDate d (startOfMonth y m) (endOfMonth y m) = true)
      ↔ (d.year = y ∧ d.month = m) := by
  simp only [isWithinIntervalDate, startOfMonth, endOfMonth, dateLE, Bool.and_eq_true,
    Bool.or_eq_true, decide_eq_true_eq, beq_iff_eq]
  constructor
  · intro h
    obtain ⟨hs, he⟩ := h
    constructor
    · omega
    · omega
  · rintro ⟨rfl, rfl⟩
    omega

/-- C5: the aggregator's month filter selects exactly the invoices whose
effective date lies within the selected month's first and last instants,
and no others; an invoice selected for a month is never selected for the
following month. -/
theorem monthlyFilter_exact (invoices : List Invoice) (y m : Int) (inv : Invoice)
    (h1 : 1 ≤ (effectiveDate inv).day)
    (h2 : (effectiveDate inv).day
        ≤ daysInMonth (effectiveDate inv).year (effectiveDate inv).month) :
    (inv ∈ filteredInvoices invoices y m
      ↔ inv ∈ invoices ∧ (effectiveDate inv).year = y ∧ (effectiveDate inv).month = m)
    ∧ (inv ∈ filteredInvoices invoices y m → inv ∉ filteredInvoices invoices y (m + 1)) := by
  have hiff : ∀ b c : Int, inv ∈ filteredInvoices invoices b c
      ↔ inv ∈ invoices ∧ (effectiveDate inv).year = b ∧ (effectiveDate inv).month = c := by
    intro b c
    unfold filteredInvoices
    rw [List.mem_filter]
    exact and_congr_right fun _ => withinMonth_iff _ _ _ h1 h2
  refine ⟨hiff y m, fun hmem hmem' => ?_⟩
  have a := (hiff y m).mp hmem
  have b := (hiff y (m + 1)).mp hmem'
  omega

/-- Witness for C5: the invoice dated the last day of January 2025 is in
January's group and not in February's, over a collection also holding an
invoice dated the first day of February. -/
theorem monthlyFilter_exact_witness :
    (invJan ∈ filteredInvoices [invJan, invFeb] 2025 1
      ↔ invJan ∈ [invJan, invFeb] ∧ (effectiveDate invJan).year = 2025
        ∧ (effectiveDate invJan).month = 1)
    ∧ (invJan ∈ filteredInvoices [invJan, invFeb] 2025 1
        → invJan ∉ filteredInvoices [invJan, invFeb] 2025 (1 + 1)) :=
  monthlyFilter_exact [invJan, invFeb] 2025 1 invJan (by decide) (by decide)

/-- C7: when the previous month holds no invoices, all three reported
percent-change fields are the no-data state none, a state distinct from
a reported 0 percent change. -/
theorem prev_month_no_data (invoices : List Invoice) (y m : Int) (curr : ℚ) (currN : Nat)
    (h : (monthStats invoices (prevMonth y m).1 (prevMonth y m).2).invoiceCount = 0) :
    reportedSalesChange curr
        (monthStats invoices (prevMonth y m).1 (prevMonth y m).2).totalSales = none
    ∧ reportedCommissionChange curr
        (monthStats invoices (prevMonth y m).1 (prevMonth y m).2).totalCommission = none
    ∧ reportedInvoiceCountChange currN
        (monthStats invoices (prevMonth y m).1 (prevMonth y m).2).invoiceCount = none
    ∧ (∀ q : ℚ, (none : Option ℚ) ≠ some q) := by
  have hlen : (filteredInvoices invoices (prevMonth y m).1 (prevMonth y m).2).length = 0 := h
  have hempty : filteredInvoices invoices (prevMonth y m).1 (prevMonth y m).2 = [] :=
    List.length_eq_zero.mp hlen
  have hsales : (monthStats invoices (prevMonth y m).1 (prevMonth y m).2).totalSales = 0 := by
    show ((filteredInvoices invoices (prevMonth y m).1 (prevMonth y m).2).map
      (·.total_amount)).sum = 0
    rw [hempty]
    rfl
  have hcomm : (monthStats invoices (prevMonth y m).1 (prevMonth y m).2).totalCommission
      = 0 := by
    show ((filteredInvoices invoices (prevMonth y m).1 (prevMonth y m).2).map
      (·.total_commission)).sum = 0
    rw [hempty]
    rfl
  refine ⟨?_, ?_, ?_, fun q hq => Option.noConfusion hq⟩
  · rw [hsales]
    unfold reportedSalesChange
    rw [if_neg (lt_irrefl 0)]
  · rw [hcomm]
    unfold reportedCommissionChange
    rw [if_neg (lt_irrefl 0)]
  · rw [h]
    unfold reportedInvoiceCountChange
    rw [if_neg (lt_irrefl 0)]

/-- Witness for C7 on the empty collection: every reported change for March
2025 against February 2025 is the no-data state. -/
theorem prev_month_no_data_witness :
    reportedSalesChange 7
        (monthStats [] (prevMonth 2025 3).1 (prevMonth 2025 3).2).totalSales = none
    ∧ reportedCommissionChange 7
        (monthStats [] (prevMonth 2025 3).1 (prevMonth 2025 3).2).totalCommission = none
    ∧ reportedInvoiceCountChange 2
        (monthStats [] (prevMonth 2025 3).1 (prevMonth 2025 3).2).invoiceCount = none
    ∧ (∀ q : ℚ, (none : Option ℚ) ≠ some q) :=
  prev_month_no_data [] 2025 3 7 2 rfl

/-- The group names after inserting one item are the old names together
with the item's category name. -/
theorem names_insertItem_mem (ncf : String) (d : LocalDate) (p : InvoiceProduct)
    (n : String) :
    ∀ acc : List ProductBreakdown,
      (n ∈ (insertItem acc ncf d p).map (·.name)
        ↔ n ∈ acc.map (·.name) ∨ n = p.product_name)
  | [] => by simp [insertItem]
  | b :: rest => by
    by_cases h : b.name = p.product_name
    · simp only [insertItem, if_pos h, List.map_cons, List.mem_cons]
      rw [← h]
      tauto
    · simp only [insertItem, if_neg h, List.map_cons, List.mem_cons,
        names_insertItem_mem ncf d p n rest]
      tauto

/-- Inserting one item preserves distinctness of the group names. -/
theorem names_insertItem_nodup (ncf : String) (d : LocalDate) (p : InvoiceProduct) :
    ∀ acc : List ProductBreakdown,
      ((acc.map (·.name)).Nodup → ((insertItem acc ncf d p).map (·.name)).Nodup)
  | [] => by simp [insertItem]
  | b :: rest => by
    intro hnd
    rw [List.map_cons, List.nodup_cons] at hnd
    obtain ⟨hb, hrest⟩ := hnd
    by_cases h : b.name = p.product_name
    · simp only [insertItem, if_pos h, List.map_cons, List.nodup_cons]
      exact ⟨hb, hrest⟩
    · simp only [insertItem, if_neg h, List.map_cons, List.nodup_cons]
      refine ⟨?_, names_insertItem_nodup ncf d p rest hrest⟩
      rw [names_insertItem_mem]
      rintro (hmem | heq)
      · exact hb hmem
      · exact h heq

/-- Names present after folding one invoice's line items: the accumulator's
names together with the names of the positive items. -/
theorem names_addItems_mem (ncf : String) (d : LocalDate) (n : String) :
    ∀ (l : List InvoiceProduct) (acc : List ProductBreakdown),
      (n ∈ ((l.foldl (fun a p => if 0 < p.amount then insertItem a ncf d p else a)
          acc).map (·.name))
        ↔ n ∈ acc.map (·.name) ∨ ∃ p ∈ l, 0 < p.amount ∧ p.product_name = n)
  | [], acc => by simp
  | p :: rest, acc => by
    simp only [List.foldl_cons]
    by_cases hp : 0 < p.amount
    · rw [if_pos hp, names_addItems_mem ncf d n rest _, names_insertItem_mem]
      simp only [List.mem_cons, exists_eq_or_imp, hp, true_and]
      constructor
      · rintro ((ha | he) | hr)
        · exact Or.inl ha
        · exact Or.inr (Or.inl he.symm)
        · exact Or.inr (Or.inr hr)
      · rintro (ha | he | hr)
        · exact Or.inl (Or.inl ha)
        · exact Or.inl (Or.inr he.symm)
        · exact Or.inr hr
    · rw [if_neg hp, names_addItems_mem ncf d n rest acc]
      simp only [List.mem_cons, exists_eq_or_imp, hp, false_and, false_or]

/-- Names present after folding a collection of invoices: the accumulator's
names together with the names of all positive line items. -/
theorem names_raw_mem (n : String) :
    ∀ (invs : List Invoice) (acc : List ProductBreakdown),
      (n ∈ ((invs.foldl addInvoiceItems acc).map (·.name))
        ↔ n ∈ acc.map (·.name)
          ∨ ∃ inv ∈ invs, ∃ p ∈ inv.products, 0 < p.amount ∧ p.product_name = n)
  | [], acc => by simp
  | inv :: rest, acc => by
    simp only [List.foldl_cons]
    rw [names_raw_mem n rest _]
    show (n ∈ (addInvoiceItems acc inv).map (·.name) ∨ _) ↔ _
    unfold addInvoiceItems
    rw [names_addItems_mem]
    simp only [List.mem_cons, exists_eq_or_imp]
    exact or_assoc

/-- Folding one invoice's line items preserves distinctness of the group
names. -/
theorem names_addItems_nodup (ncf : String) (d : LocalDate) :
    ∀ (l : List InvoiceProduct) (acc : List ProductBreakdown),
      ((acc.map (·.name)).Nodup →
        ((l.foldl (fun a p => if 0 < p.amount then insertItem a ncf d p else a)
          acc).map (·.name)).Nodup)
  | [], acc => fun h => h
  | p :: rest, acc => by
    intro h
    simp only [List.foldl_cons]
    by_cases hp : 0 < p.amount
    · rw [if_pos hp]
      exact names_addItems_nodup ncf d rest _ (names_insertItem_nodup ncf d p acc h)
    · rw [if_neg hp]
      exact names_addItems_nodup ncf d rest acc h

/-- Folding a collection of invoices preserves distinctness of the group
names. -/
theorem names_raw_nodup :
    ∀ (invs : List Invoice) (acc : List ProductBreakdown),
      ((acc.map (·.name)).Nodup → ((invs.foldl addInvoiceItems acc).map (·.name)).Nodup)
  | [], _ => fun h => h
  | inv :: rest, acc => by
    intro h
    simp only [List.foldl_cons]
    exact names_raw_nodup rest _ (names_addItems_nodup inv.ncf (effectiveDate inv) inv.products acc h)

/-- Inserting an item preserves any property of the groups that depends
only on their name and percentage, provided the item's own name and
percentage satisfy it: an existing group keeps its name and its
creation-time percentage, and a new group takes both from the item. -/
theorem insertItem_namePct (Q : String → ℚ → Prop) (ncf : String) (d : LocalDate)
    (p : InvoiceProduct) :
    ∀ acc : List ProductBreakdown,
      ((∀ b ∈ acc, Q b.name b.percentage) → Q p.product_name p.percentage →
        ∀ b ∈ insertItem acc ncf d p, Q b.name b.percentage)
  | [] => by
    intro _ hp b hb
    simp only [insertItem, List.mem_singleton] at hb
    subst hb
    exact hp
  | b0 :: rest => by
    intro hacc hp b hb
    by_cases h : b0.name = p.product_name
    · rw [insertItem, if_pos h] at hb
      rcases List.mem_cons.mp hb with hb | hb
      · subst hb
        exact hacc b0 (List.mem_cons_self b0 rest)
      · exact hacc b (List.mem_cons_of_mem b0 hb)
    · rw [insertItem, if_neg h] at hb
      rcases List.mem_cons.mp hb with hb | hb
      · subst hb
        exact hacc b (List.mem_cons_self b rest)
      · exact insertItem_namePct Q ncf d p rest
          (fun c hc => hacc c (List.mem_cons_of_mem b0 hc)) hp b hb

/-- Folding one invoice's line items preserves a name-and-percentage
property satisfied by all positive items. -/
theorem addItems_namePct (Q : String → ℚ → Prop) (ncf : String) (d : LocalDate) :
    ∀ (l : List InvoiceProduct) (acc : List ProductBreakdown),
      ((∀ b ∈ acc, Q b.name b.percentage) →
        (∀ p ∈ l, 0 < p.amount → Q p.product_name p.percentage) →
        ∀ b ∈ l.foldl (fun a p => if 0 < p.amount then insertItem a ncf d p else a) acc,
          Q b.name b.percentage)
  | [], acc => fun hacc _ => hacc
  | p :: rest, acc => by
    intro hacc hl b hb
    simp only [List.foldl_cons] at hb
    by_cases hp : 0 < p.amount
    · rw [if_pos hp] at hb
      exact addItems_namePct Q ncf d rest _
        (insertItem_namePct Q ncf d p acc hacc
          (hl p (List.mem_cons_self p rest) hp))
        (fun q hq => hl q (List.mem_cons_of_mem p hq)) b hb
    · rw [if_neg hp] at hb
      exact addItems_namePct Q ncf d rest acc hacc
        (fun q hq => hl q (List.mem_cons_of_mem p hq)) b hb

/-- Folding a collection of invoices preserves a name-and-percentage
property satisfied by all positive line items of the collection. -/
theorem raw_namePct (Q : String → ℚ → Prop) :
    ∀ (invs : List Invoice) (acc : List ProductBreakdown),
      ((∀ b ∈ acc, Q b.name b.percentage) →
        (∀ inv ∈ invs, ∀ p ∈ inv.products, 0 < p.amount → Q p.product_name p.percentage) →
        ∀ b ∈ invs.foldl addInvoiceItems acc, Q b.name b.percentage)
  | [], acc => fun hacc _ => hacc
  | inv :: rest, acc => by
    intro hacc hl b hb
    simp only [List.foldl_cons] at hb
    exact raw_namePct Q rest _
      (addItems_namePct Q inv.ncf (effectiveDate inv) inv.products acc hacc
        (hl inv (List.mem_cons_self inv rest)))
      (fun j hj => hl j (List.mem_cons_of_mem inv hj)) b hb

/-- The rest-bucket fold appends the filtered entries and accumulates the
filtered sums. -/
theorem restFoldAux :
    ∀ (invs : List Invoice) (acc : RestBreakdown),
      invs.foldl
        (fun acc inv =>
          if 0 < inv.rest_amount then
            { entries := acc.entries ++ [⟨inv.ncf, effectiveDate inv, inv.rest_amount⟩]
              totalAmount := acc.totalAmount + inv.rest_amount
              totalCommission := acc.totalCommission + inv.rest_commission }
          else acc)
        acc
      = { entries := acc.entries
            ++ ((invs.filter fun inv => 0 < inv.rest_amount).map fun inv =>
                (⟨inv.ncf, effectiveDate inv, inv.rest_amount⟩ : ProductEntry))
          totalAmount := acc.totalAmount
            + ((invs.filter fun inv => 0 < inv.rest_amount).map (·.rest_amount)).sum
          totalCommission := acc.totalCommission
            + ((invs.filter fun inv => 0 < inv.rest_amount).map (·.rest_commission)).sum }
  | [], acc => by simp
  | inv :: rest, acc => by
    simp only [List.foldl_cons]
    by_cases h : 0 < inv.rest_amount
    · rw [if_pos h, restFoldAux rest _]
      simp [List.filter_cons, h, List.append_assoc, add_assoc]
    · rw [if_neg h, restFoldAux rest acc]
      simp [List.filter_cons, h]

/-- The rest bucket holds exactly one entry per invoice with positive rest
amount, and its totals are the corresponding sums. -/
theorem restBreakdown_spec (invoices : List Invoice) :
    restBreakdown invoices
      = { entries := (invoices.filter fun inv => 0 < inv.rest_amount).map fun inv =>
            (⟨inv.ncf, effectiveDate inv, inv.rest_amount⟩ : ProductEntry)
          totalAmount := ((invoices.filter fun inv => 0 < inv.rest_amount).map
            (·.rest_amount)).sum
          totalCommission := ((invoices.filter fun inv => 0 < inv.rest_amount).map
            (·.rest_commission)).sum } := by
  unfold restBreakdown
  rw [restFoldAux]
  simp

/-- Membership in the displayed breakdown coincides with membership in the
unsorted grouping. -/
theorem mem_productsBreakdown (invoices : List Invoice) (b : ProductBreakdown) :
    b ∈ productsBreakdown invoices ↔ b ∈ productsBreakdownRaw invoices :=
  (List.mergeSort_perm (productsBreakdownRaw invoices) _).mem_iff

/-- The displayed breakdown is sorted by descending subtotal amount. -/
theorem productsBreakdown_sorted (invoices : List Invoice) :
    (productsBreakdown invoices).Sorted fun a b => b.totalAmount ≤ a.totalAmount := by
  have h := @List.sorted_mergeSort ProductBreakdown
    (fun a b => decide (b.totalAmount ≤ a.totalAmount))
    (fun a b c h1 h2 => by
      simp only [decide_eq_true_eq] at h1 h2 ⊢
      exact le_trans h2 h1)
    (fun a b => by
      simp only [Bool.or_eq_true, decide_eq_true_eq]
      exact le_total _ _)
    (productsBreakdownRaw invoices)
  exact h.imp fun hab => of_decide_eq_true hab

/-- C6: the aggregator's category groups carry pairwise-distinct names, are
sorted by descending subtotal amount, consist exactly of the names of the
positive line items, the rest bucket is built from exactly the invoices
with positive rest amount, and the grand total commission is the sum of
the category subtotal commissions plus the rest subtotal commission. -/
theorem monthly_grouping (invoices : List Invoice) :
    ((productsBreakdown invoices).map (·.name)).Nodup
    ∧ (productsBreakdown invoices).Sorted (fun a b => b.totalAmount ≤ a.totalAmount)
    ∧ (∀ b ∈ productsBreakdown invoices,
        ∃ inv ∈ invoices, ∃ p ∈ inv.products, 0 < p.amount ∧ p.product_name = b.name)
    ∧ (∀ inv ∈ invoices, ∀ p ∈ inv.products, 0 < p.amount →
        ∃ b ∈ productsBreakdown invoices, b.name = p.product_name)
    ∧ (restBreakdown invoices).entries
        = ((invoices.filter fun inv => 0 < inv.rest_amount).map fun inv =>
            (⟨inv.ncf, effectiveDate inv, inv.rest_amount⟩ : ProductEntry))
    ∧ (restBreakdown invoices).totalAmount
        = ((invoices.filter fun inv => 0 < inv.rest_amount).map (·.rest_amount)).sum
    ∧ (restBreakdown invoices).totalCommission
        = ((invoices.filter fun inv => 0 < inv.rest_amount).map (·.rest_commission)).sum
    ∧ grandTotalCommission invoices
        = ((productsBreakdown invoices).map (·.totalCommission)).sum
          + (restBreakdown invoices).totalCommission := by
  refine ⟨?_, productsBreakdown_sorted invoices, ?_, ?_, ?_, ?_, ?_, rfl⟩
  · have hraw : ((productsBreakdownRaw invoices).map (·.name)).Nodup :=
      names_raw_nodup invoices [] (by simp)
    have hperm := (List.mergeSort_perm (productsBreakdownRaw invoices)
      (fun a b => decide (b.totalAmount ≤ a.totalAmount))).map (·.name)
    exact hperm.symm.nodup hraw
  · intro b hb
    have hb' : b ∈ productsBreakdownRaw invoices :=
      (mem_productsBreakdown invoices b).mp hb
    exact raw_namePct
      (fun n _ => ∃ inv ∈ invoices, ∃ p ∈ inv.products, 0 < p.amount ∧ p.product_name = n)
      invoices [] (by simp)
      (fun inv hi p hp hpos => ⟨inv, hi, p, hp, hpos, rfl⟩) b hb'
  · intro inv hi p hp hpos
    have hmem : p.product_name ∈ ((invoices.foldl addInvoiceItems []).map (·.name)) := by
      rw [names_raw_mem]
      exact Or.inr ⟨inv, hi, p, hp, hpos, rfl⟩
    obtain ⟨b, hbmem, hbname⟩ := List.mem_map.mp hmem
    exact ⟨b, (mem_productsBreakdown invoices b).mpr hbmem, hbname⟩
  · rw [restBreakdown_spec]
  · rw [restBreakdown_spec]
  · rw [restBreakdown_spec]

/-- Witness for C6 on a one-invoice collection. -/
theorem monthly_grouping_witness :
    ((productsBreakdown [invC10]).map (·.name)).Nodup
    ∧ (productsBreakdown [invC10]).Sorted (fun a b => b.totalAmount ≤ a.totalAmount)
    ∧ (∀ b ∈ productsBreakdown [invC10],
        ∃ inv ∈ [invC10], ∃ p ∈ inv.products, 0 < p.amount ∧ p.product_name = b.name)
    ∧ (∀ inv ∈ [invC10], ∀ p ∈ inv.products, 0 < p.amount →
        ∃ b ∈ productsBreakdown [invC10], b.name = p.product_name)
    ∧ (restBreakdown [invC10]).entries
        = (([invC10].filter fun inv => 0 < inv.rest_amount).map fun inv =>
            (⟨inv.ncf, effectiveDate inv, inv.rest_amount⟩ : ProductEntry))
    ∧ (restBreakdown [invC10]).totalAmount
        = (([invC10].filter fun inv => 0 < inv.rest_amount).map (·.rest_amount)).sum
    ∧ (restBreakdown [invC10]).totalCommission
        = (([invC10].filter fun inv => 0 < inv.rest_amount).map (·.rest_commission)).sum
    ∧ grandTotalCommission [invC10]
        = ((productsBreakdown [invC10]).map (·.totalCommission)).sum
          + (restBreakdown [invC10]).totalCommission :=
  monthly_grouping [invC10]

/-- C9: updating a category's configured percentage rewrites only the
configuration and leaves every stored invoice, the aggregation views and
the grand total unchanged; the create path persists verbatim copies of
the payload's line-item values; and every displayed group's percentage is
read from a stored line item, never from the live configuration. -/
theorem frozen_percentage (s : AppState) (id : String) (pct : ℚ)
    (db : DB) (newId : String) (createdAt : LocalDate) (f : UpdatePayload)
    (hdup : (db.invoices.find? fun i => i.ncf == f.ncf) = none) :
    (updateProductPercentage s id pct).invoices = s.invoices
    ∧ productsBreakdown (updateProductPercentage s id pct).invoices
        = productsBreakdown s.invoices
    ∧ restBreakdown (updateProductPercentage s id pct).invoices
        = restBreakdown s.invoices
    ∧ grandTotalCommission (updateProductPercentage s id pct).invoices
        = grandTotalCommission s.invoices
    ∧ (saveInvoiceDB db newId createdAt f true true).2.invoice_products
        = db.invoice_products
          ++ ((f.products.filter fun p => 0 < p.amount).map fun p =>
              ({ invoice_id := newId, product_name := p.name, amount := p.amount,
                 percentage := p.percentage, commission := p.commission } : ProductRow))
    ∧ (∀ b ∈ productsBreakdown s.invoices,
        ∃ inv ∈ s.invoices, ∃ p ∈ inv.products,
          0 < p.amount ∧ p.product_name = b.name ∧ p.percentage = b.percentage) := by
  refine ⟨rfl, rfl, rfl, rfl, ?_, ?_⟩
  · unfold saveInvoiceDB
    rw [hdup]
    cases hfil : f.products.filter fun p => 0 < p.amount with
    | nil => simp
    | cons a l => rfl
  · intro b hb
    have hb' : b ∈ productsBreakdownRaw s.invoices :=
      (mem_productsBreakdown s.invoices b).mp hb
    exact raw_namePct
      (fun n q => ∃ inv ∈ s.invoices, ∃ p ∈ inv.products,
        0 < p.amount ∧ p.product_name = n ∧ p.percentage = q)
      s.invoices [] (by simp)
      (fun inv hi p hp hpos => ⟨inv, hi, p, hp, hpos, rfl, rfl⟩) b hb'

/-- Witness for C9 at a concrete state, configuration update and create. -/
theorem frozen_percentage_witness :
    (updateProductPercentage sC9 "a" 50).invoices = sC9.invoices
    ∧ productsBreakdown (updateProductPercentage sC9 "a" 50).invoices
        = productsBreakdown sC9.invoices
    ∧ restBreakdown (updateProductPercentage sC9 "a" 50).invoices
        = restBreakdown sC9.invoices
    ∧ grandTotalCommission (updateProductPercentage sC9 "a" 50).invoices
        = grandTotalCommission sC9.invoices
    ∧ (saveInvoiceDB dbEmpty "n1" ⟨2025, 6, 1⟩ payC8 true true).2.invoice_products
        = dbEmpty.invoice_products
          ++ ((payC8.products.filter fun p => 0 < p.amount).map fun p =>
              ({ invoice_id := "n1", product_name := p.name, amount := p.amount,
                 percentage := p.percentage, commission := p.commission } : ProductRow))
    ∧ (∀ b ∈ productsBreakdown sC9.invoices,
        ∃ inv ∈ sC9.invoices, ∃ p ∈ inv.products,
          0 < p.amount ∧ p.product_name = b.name ∧ p.percentage = b.percentage) :=
  frozen_percentage sC9 "a" 50 dbEmpty "n1" ⟨2025, 6, 1⟩ payC8 rfl
